import Mathlib

/-!
Verification of the serverless-image-resizer client core
(src/src/ImageUploader.jsx), shallowly embedded in Lean.

The embedding covers:
* the output-key derivation `getOutputKey` (lines 96-123), modelled on
  lists of characters, with the two anchored regular expressions
  implemented as deterministic matchers (maximal-munch is equivalent to
  backtracking here because every digit run is followed by a non-digit
  literal in the pattern);
* the parameter-clamping handlers `handleQualityChange` /
  `handleDimensionChange` (lines 71-85), with JavaScript numbers
  modelled as `Option ℚ` (`none` = NaN);
* the polling loop installed by the effect (lines 249-290), as a step
  function on a small poll state driven by a stream of probe results;
* the controller itself (file selection, upload flow, polling effect,
  reset; lines 30-296), as a step function on a controller state driven
  by user and network events, with live interval timers tracked
  explicitly so that timer-leak claims can be stated.
-/

namespace ImageResizer

/-! ### Configuration constants (ImageUploader.jsx lines 20-27) -/

def outputBucketName : String := "vyomuchat-image-resizer-output"

def region : String := "eu-north-1"

def outputFormat : String := "jpeg"

def pollingIntervalMs : Nat := 2000

def maxPollingAttempts : Nat := 15

/-- `outputFormat.toLowerCase()` as used at lines 104 and 117. -/
def extensionChars : List Char := outputFormat.data.map Char.toLower

/-! ### KeyCodec: model of getOutputKey (lines 96-123) -/

/-- JavaScript line terminators, which `.` in a regex does not match. -/
def isLineTerm (c : Char) : Bool :=
  c == '\n' || c == '\r' || c.val == 0x2028 || c.val == 0x2029

/-- The `(.*)` capture group: the longest run of non-line-terminators. -/
def dotStar (l : List Char) : List Char :=
  l.takeWhile (fun c => !(isLineTerm c))

/-- `\d+`: one or more digits, returning the digits and the remainder;
fails when the first character is not a digit. -/
def takeDigits1 (l : List Char) : Option (List Char × List Char) :=
  let ds := l.takeWhile Char.isDigit
  if ds = [] then none else some (ds, l.drop ds.length)

/-- The anchored regex at line 97: matching a key of shape
q digits _w digits _h digits / rest yields the captured groups
(the parameter part and the remainder after the slash). -/
def matchNewShape : List Char → Option (List Char × List Char)
  | 'q' :: r1 =>
    match takeDigits1 r1 with
    | some (d1, '_' :: 'w' :: r2) =>
      match takeDigits1 r2 with
      | some (d2, '_' :: 'h' :: r3) =>
        match takeDigits1 r3 with
        | some (d3, '/' :: rest) =>
          some ('q' :: (d1 ++ '_' :: 'w' :: (d2 ++ '_' :: 'h' :: d3)), rest)
        | _ => none
      | _ => none
    | _ => none
  | _ => none

/-- The anchored legacy regex at line 108: quality digits / rest. -/
def matchOldShape : List Char → Option (List Char × List Char)
  | 'q' :: 'u' :: 'a' :: 'l' :: 'i' :: 't' :: 'y' :: r =>
    match takeDigits1 r with
    | some (ds, '/' :: rest) =>
      some ('q' :: 'u' :: 'a' :: 'l' :: 'i' :: 't' :: 'y' :: ds, rest)
    | _ => none
  | _ => none

/-- The characters strictly before the last '.' of the list, or `none`
when there is no dot (JavaScript `lastIndexOf` returning -1). -/
def beforeLastDot : List Char → Option (List Char)
  | [] => none
  | c :: r =>
    match beforeLastDot r with
    | some p => some (c :: p)
    | none => if c = '.' then some [] else none

/-- The idiom `f.substring(0, f.lastIndexOf(".")) || f` of lines 101-103
and 114-116: the part before the last dot, except that an empty result
(no dot, or the dot in first position) falls back to the whole segment. -/
def jsBaseName (f : List Char) : List Char :=
  match beforeLastDot f with
  | none => f
  | some [] => f
  | some p => p

/-- getOutputKey (lines 96-123) on character lists.  Both recognised
shapes share the transformation of the trailing segment; an
unrecognised key produces the fallback location of line 122. -/
def getOutputKeyChars (key : List Char) : List Char :=
  match matchNewShape key with
  | some (pfx, rest) =>
    ("resized-".data) ++ pfx ++ ('/' :: (jsBaseName (dotStar rest) ++ ('.' :: extensionChars)))
  | none =>
    match matchOldShape key with
    | some (pfx, rest) =>
      ("resized-".data) ++ pfx ++ ('/' :: (jsBaseName (dotStar rest) ++ ('.' :: extensionChars)))
    | none => ("resized-unknown/".data) ++ key

/-- getOutputKey on strings. -/
def getOutputKey (key : String) : String :=
  (getOutputKeyChars key.data).asString

/-! ### Parameter clamping (lines 71-85)

JavaScript numbers as they appear in these handlers are modelled as
`Option ℚ`, with `none` standing for NaN; `Math.min`/`Math.max`
propagate NaN. -/

/-- `Math.min a x` with NaN propagation. -/
def jsMin (a : ℚ) : Option ℚ → Option ℚ
  | none => none
  | some v => some (min a v)

/-- `Math.max a x` with NaN propagation. -/
def jsMax (a : ℚ) : Option ℚ → Option ℚ
  | none => none
  | some v => some (max a v)

/-- handleQualityChange (lines 71-74): the value stored into the
quality state for a given parsed input `Number(newQuality)`. -/
def handleQualityChange (x : Option ℚ) : ℚ :=
  match jsMax 1 (jsMin 100 x) with
  | none => 85
  | some v => v

/-- handleDimensionChange (lines 77-85): the value stored into the
width or height state for a given parsed input `Number(value)`. -/
def handleDimensionChange (x : Option ℚ) : ℚ :=
  match jsMax 1 x with
  | none => 128
  | some v => if v = 0 then 128 else v

/-! ### CompletionPoller: the interval callback (lines 249-290)

One probe is one HEAD request; its result is either an HTTP status or a
network fault (the catch at line 287).  The poll state records whether
the interval is still installed, the value of `pollingAttemptsRef`, and
(as observable history) how many probes have actually been issued. -/

inductive ProbeResult
  | response (status : Nat)
  | networkError
deriving DecidableEq

/-- `headResponse.ok`: a 2xx status (line 269); a network fault is
never a success. -/
def isFound : ProbeResult → Bool
  | ProbeResult.response st => 200 ≤ st && st ≤ 299
  | ProbeResult.networkError => false

inductive PollStatus
  | running
  | succeeded
  | exhausted
deriving DecidableEq

structure PollState where
  status : PollStatus
  attempts : Nat
  probes : Nat
deriving DecidableEq

/-- The state right after the interval is installed (lines 247-249):
attempt counter 0, no probe issued yet. -/
def pollInit : PollState :=
  { status := PollStatus.running, attempts := 0, probes := 0 }

/-- One firing of the interval callback (lines 250-289).  The attempt
counter is incremented first (line 250); if it now exceeds the budget
the poll stops as exhausted without issuing a probe (lines 255-261);
otherwise a probe is issued and classified: 2xx stops the poll as
succeeded (lines 269-274); 403/404 continues (lines 275-281); any other
status continues (lines 282-286); a network fault continues (lines
287-289).  `clearInterval` plus the attempt-counter reset performed by
stopPolling are reflected in the stopping branches.  Once the interval
has been cleared the callback no longer fires, so the tick is the
identity on stopped states. -/
def pollTick (maxA : Nat) (s : PollState) (r : ProbeResult) : PollState :=
  if s.status ≠ PollStatus.running then s
  else
    let a := s.attempts + 1
    if maxA < a then
      { status := PollStatus.exhausted, attempts := 0, probes := s.probes }
    else
      match r with
      | ProbeResult.response st =>
        if 200 ≤ st && st ≤ 299 then
          { status := PollStatus.succeeded, attempts := 0, probes := s.probes + 1 }
        else if st = 403 || st = 404 then
          { status := PollStatus.running, attempts := a, probes := s.probes + 1 }
        else
          { status := PollStatus.running, attempts := a, probes := s.probes + 1 }
      | ProbeResult.networkError =>
        { status := PollStatus.running, attempts := a, probes := s.probes + 1 }

/-- A whole polling run: the state after `n` firings of the interval
callback, the probe of firing `i` (when one is issued) answering
`f i`. -/
def pollRun (maxA : Nat) (f : Nat → ProbeResult) : Nat → PollState
  | 0 => pollInit
  | n + 1 => pollTick maxA (pollRun maxA f n) (f n)

/-! ### JobController: the component state and its event handlers

The React component state (lines 4-18) plus the interval machinery.
Files are identified by a number standing for the File object.  Live
interval timers are tracked explicitly as the list of ids returned by
`setInterval` and not yet passed to `clearInterval`, with `pollRef`
modelling `pollingIntervalRef.current` and `nextId` the next id the
runtime will hand out; this makes timer-leak properties statable.
`pendingKey` models the local `key` destructured from the broker
response at line 203, which the upload continuation reads at
line 221.  `phase` is a ghost annotation recording the spec's job
state (§4.4) at the natural transition points; the source has no such
variable. -/

inductive Phase
  | idle
  | requestingLocation
  | uploading
  | awaitingResult
  | succeeded
  | failed
deriving DecidableEq

structure CState where
  selectedFile : Option Nat
  originalPreviewUrl : Option Nat
  uploadStatus : String
  isLoading : Bool
  resizedImageUrl : Option String
  lastUploadedKey : Option String
  pendingKey : Option String
  pollRef : Option Nat
  liveTimers : List Nat
  attempts : Nat
  nextId : Nat
  phase : Phase
deriving DecidableEq

/-- The initial component state (lines 5-18). -/
def cInit : CState :=
  { selectedFile := none, originalPreviewUrl := none, uploadStatus := "",
    isLoading := false, resizedImageUrl := none, lastUploadedKey := none,
    pendingKey := none, pollRef := none, liveTimers := [], attempts := 0,
    nextId := 0, phase := Phase.idle }

/-- stopPolling (lines 30-37): clear the interval named by the ref, if
any, null the ref and zero the attempt counter. -/
def stopPolling (s : CState) : CState :=
  match s.pollRef with
  | some id => { s with liveTimers := s.liveTimers.erase id,
                        pollRef := none, attempts := 0 }
  | none => s

/-- The polling effect (lines 238-296), run after any event that writes
`lastUploadedKey`: first stop any previous polling (line 239); when a
key is present, zero the attempt counter (line 247) and install a fresh
interval (line 249). -/
def pollEffect (s : CState) : CState :=
  match (stopPolling s).lastUploadedKey with
  | some _ =>
    { stopPolling s with
      attempts := 0,
      liveTimers := (stopPolling s).liveTimers ++ [(stopPolling s).nextId],
      pollRef := some (stopPolling s).nextId,
      nextId := (stopPolling s).nextId + 1 }
  | none => stopPolling s

/-- The URL polled for the derived output key (line 243). -/
def publicUrl (outKey : String) : String :=
  "https://" ++ outputBucketName ++ ".s3." ++ region ++ ".amazonaws.com/" ++ outKey

/-- The events driving the controller: the user selecting (or
deselecting) a file, clicking upload, the two network responses of the
upload flow arriving (ok or failed), one firing of the poll interval,
and the reset button. -/
inductive Event
  | selectFile (f : Nat)
  | clearFile
  | submit
  | brokerOk (key : String)
  | brokerFail (msg : String)
  | transferOk
  | transferFail (msg : String)
  | tickEv (r : ProbeResult)
  | reset

/-- One controller step.

* `selectFile` is handleFileChange with a file (lines 42-61): record
  the selection, clear previous result and key, stop polling, set the
  preview; the effect then reruns on the cleared key.
* `clearFile` is the else branch (lines 62-67).
* `submit` is handleUpload (lines 169-235) up to its first await: with
  no file selected it only sets the status message (lines 171-174);
  otherwise lines 176-180 run and the request is issued.
* `brokerOk` is the continuation at lines 203-205; `brokerFail` and
  `transferFail` are the catch block (lines 227-234).
* `transferOk` is the continuation at lines 220-225, after which the
  effect starts polling for the recorded key.
* `tickEv` is one firing of the installed interval (lines 249-290),
  mirroring `pollTick`; it can only fire while an interval exists.
* `reset` is the Resize-Another-Image handler (lines 455-464). -/
def step (s : CState) : Event → CState
  | Event.selectFile f =>
    pollEffect (stopPolling
      { s with selectedFile := some f,
               uploadStatus := "Selected: " ++ toString f,
               resizedImageUrl := none, lastUploadedKey := none,
               isLoading := false, originalPreviewUrl := some f,
               phase := Phase.idle })
  | Event.clearFile =>
    { s with originalPreviewUrl := none, selectedFile := none, uploadStatus := "" }
  | Event.submit =>
    match s.selectedFile with
    | none => { s with uploadStatus := "Please select a file first." }
    | some _ =>
      pollEffect (stopPolling
        { s with isLoading := true, resizedImageUrl := none,
                 uploadStatus := "Getting upload URL...",
                 lastUploadedKey := none,
                 phase := Phase.requestingLocation })
  | Event.brokerOk key =>
    { s with uploadStatus := "Uploading image...", pendingKey := some key,
             phase := Phase.uploading }
  | Event.brokerFail msg =>
    pollEffect (stopPolling
      { s with uploadStatus := "Error: " ++ msg, isLoading := false,
               lastUploadedKey := none, phase := Phase.failed })
  | Event.transferOk =>
    pollEffect
      { s with uploadStatus := "Upload successful! Waiting for resized version...",
               lastUploadedKey := s.pendingKey, selectedFile := none,
               phase := Phase.awaitingResult }
  | Event.transferFail msg =>
    pollEffect (stopPolling
      { s with uploadStatus := "Error: " ++ msg, isLoading := false,
               lastUploadedKey := none, phase := Phase.failed })
  | Event.tickEv r =>
    match s.pollRef with
    | none => s
    | some _ =>
      let a := s.attempts + 1
      if maxPollingAttempts < a then
        stopPolling
          { s with uploadStatus := "Image processing timed out. Please try again.",
                   isLoading := false, phase := Phase.failed }
      else
        match r with
        | ProbeResult.response st =>
          if 200 ≤ st && st ≤ 299 then
            { stopPolling s with
              resizedImageUrl :=
                some (publicUrl (getOutputKey (s.lastUploadedKey.getD ""))),
              uploadStatus := "Resized image loaded.", isLoading := false,
              phase := Phase.succeeded }
          else if st = 403 || st = 404 then { s with attempts := a }
          else { s with attempts := a }
        | ProbeResult.networkError => { s with attempts := a }
  | Event.reset =>
    pollEffect (stopPolling
      { s with resizedImageUrl := none, originalPreviewUrl := none,
               uploadStatus := "", lastUploadedKey := none,
               selectedFile := none, isLoading := false,
               phase := Phase.idle })

/-! ### Helper lemmas about the key matchers -/

/-- A key of the legacy textual shape, assembled from its digit part
and trailing segment. -/
def oldKey (d n : List Char) : List Char :=
  'q' :: 'u' :: 'a' :: 'l' :: 'i' :: 't' :: 'y' :: (d ++ '/' :: n)

/-- A key of the new textual shape, assembled from its three digit
parts and trailing segment. -/
def newKey (d1 d2 d3 n : List Char) : List Char :=
  'q' :: (d1 ++ '_' :: 'w' :: (d2 ++ '_' :: 'h' :: (d3 ++ '/' :: n)))

/-- The capture group produced by the new-shape matcher on `newKey`. -/
def newPfx (d1 d2 d3 : List Char) : List Char :=
  'q' :: (d1 ++ '_' :: 'w' :: (d2 ++ '_' :: 'h' :: d3))

theorem takeWhile_append_all {p : Char → Bool} {d : List Char} (r : List Char)
    (h : ∀ c ∈ d, p c = true) :
    (d ++ r).takeWhile p = d ++ r.takeWhile p := by
  induction d with
  | nil => simp
  | cons a t ih =>
    have ha : p a = true := h a (List.mem_cons_self a t)
    simp only [List.cons_append, List.takeWhile_cons, ha, if_true]
    rw [ih fun c hc => h c (List.mem_cons_of_mem a hc)]

theorem takeWhile_eq_self_all {p : Char → Bool} {l : List Char}
    (h : ∀ c ∈ l, p c = true) : l.takeWhile p = l := by
  have := takeWhile_append_all (p := p) (d := l) [] h
  simpa using this

theorem takeDigits1_eq {d : List Char} (c : Char) (r : List Char) (hd : d ≠ [])
    (hdig : ∀ x ∈ d, x.isDigit = true) (hc : c.isDigit = false) :
    takeDigits1 (d ++ c :: r) = some (d, c :: r) := by
  have h1 : (d ++ c :: r).takeWhile Char.isDigit = d := by
    rw [takeWhile_append_all (c :: r) hdig]
    simp [List.takeWhile_cons, hc]
  unfold takeDigits1
  simp only [h1, if_neg hd, List.drop_left]

theorem matchOldShape_oldKey {d : List Char} (n : List Char) (hd : d ≠ [])
    (hdig : ∀ x ∈ d, x.isDigit = true) :
    matchOldShape (oldKey d n) =
      some ('q' :: 'u' :: 'a' :: 'l' :: 'i' :: 't' :: 'y' :: d, n) := by
  have := takeDigits1_eq (d := d) '/' n hd hdig (by decide)
  simp [oldKey, matchOldShape, this]

theorem matchNewShape_oldKey (d n : List Char) :
    matchNewShape (oldKey d n) = none := rfl

theorem matchNewShape_newKey {d1 d2 d3 : List Char} (n : List Char)
    (h1 : d1 ≠ []) (h1d : ∀ x ∈ d1, x.isDigit = true)
    (h2 : d2 ≠ []) (h2d : ∀ x ∈ d2, x.isDigit = true)
    (h3 : d3 ≠ []) (h3d : ∀ x ∈ d3, x.isDigit = true) :
    matchNewShape (newKey d1 d2 d3 n) = some (newPfx d1 d2 d3, n) := by
  have e1 := takeDigits1_eq (d := d1) '_' ('w' :: (d2 ++ '_' :: 'h' :: (d3 ++ '/' :: n)))
    h1 h1d (by decide)
  have e2 := takeDigits1_eq (d := d2) '_' ('h' :: (d3 ++ '/' :: n)) h2 h2d (by decide)
  have e3 := takeDigits1_eq (d := d3) '/' n h3 h3d (by decide)
  simp [newKey, newPfx, matchNewShape, e1, e2, e3]

theorem dotStar_eq_self {n : List Char} (hn : ∀ c ∈ n, isLineTerm c = false) :
    dotStar n = n :=
  takeWhile_eq_self_all fun c hc => by simp [hn c hc]

/-! ### Claims about KeyCodec -/

/-- Claim C5 (confirmed): the new-shape input key q85_w128_h128/a.png,
with the configured output extension jpeg, derives the output location
resized-q85_w128_h128/a.jpeg: the parameter part is carried through
with resized- prepended, and the file extension is replaced by the
output extension. -/
theorem new_key_concrete_output :
    getOutputKey "q85_w128_h128/a.png" = "resized-q85_w128_h128/a.jpeg" := by
  decide

/-- Claim C1, counterexample: the input key garbage matches neither the
new shape nor the legacy shape, and getOutputKey returns the derived
location string resized-unknown/garbage rather than a ParseError — the
function is total into strings and has no error result at all, so the
claim that a ParseError is returned is false on the code. -/
theorem unmatched_key_falls_back :
    matchNewShape "garbage".data = none ∧ matchOldShape "garbage".data = none ∧
    getOutputKey "garbage" = "resized-unknown/garbage" := by
  refine ⟨rfl, rfl, by decide⟩

/-- Claim C1, amended: for every input key that matches neither the new
shape nor the legacy shape, getOutputKey logs an error and returns the
fallback location string resized-unknown/ followed by the malformed key
(so the malformed key is carried, but inside an ordinary derived
location string, not a ParseError value). -/
theorem unmatched_key_result (key : List Char)
    (h1 : matchNewShape key = none) (h2 : matchOldShape key = none) :
    getOutputKeyChars key = ("resized-unknown/".data) ++ key := by
  simp [getOutputKeyChars, h1, h2]

theorem unmatched_key_result_witness :
    matchNewShape "garbage".data = none ∧ matchOldShape "garbage".data = none ∧
    getOutputKeyChars "garbage".data = ("resized-unknown/".data) ++ "garbage".data :=
  ⟨rfl, rfl, unmatched_key_result _ rfl rfl⟩

/-- Claim C8 (confirmed): every legacy-shape key quality digits / name
derives successfully, through the very same segment transformation as
the new shape (`jsBaseName`, shared by both branches of
`getOutputKeyChars`): the name keeps everything before its last dot
(or stays whole if that would be empty) and the configured output
extension is appended; only the carried-through parameter part differs.
The hypotheses say that the digit part is a nonempty run of digits and
that the name contains no line terminator (so that the dot-star capture
takes all of it). -/
theorem legacy_key_output (d n : List Char) (hd : d ≠ [])
    (hdig : ∀ x ∈ d, x.isDigit = true)
    (hn : ∀ c ∈ n, isLineTerm c = false) :
    getOutputKeyChars (oldKey d n) =
      ("resized-".data) ++ ('q' :: 'u' :: 'a' :: 'l' :: 'i' :: 't' :: 'y' :: d)
        ++ ('/' :: (jsBaseName n ++ ('.' :: extensionChars)))
      ∧ extensionChars = "jpeg".data := by
  refine ⟨?_, by decide⟩
  simp [getOutputKeyChars, matchNewShape_oldKey, matchOldShape_oldKey n hd hdig,
    dotStar_eq_self hn]

theorem legacy_key_output_witness :
    ("42".data ≠ [] ∧ (∀ x ∈ "42".data, x.isDigit = true) ∧
      (∀ c ∈ "photo.png".data, isLineTerm c = false)) ∧
    (getOutputKeyChars (oldKey "42".data "photo.png".data) =
      ("resized-".data) ++ ('q' :: 'u' :: 'a' :: 'l' :: 'i' :: 't' :: 'y' :: "42".data)
        ++ ('/' :: (jsBaseName "photo.png".data ++ ('.' :: extensionChars)))
      ∧ extensionChars = "jpeg".data) :=
  ⟨⟨by decide, by decide, by decide⟩,
    legacy_key_output "42".data "photo.png".data (by decide) (by decide) (by decide)⟩

/-- Claim C10, counterexample: the key q1_w1_h1/ matches the new shape
with an empty trailing segment; the segment contains no dot, so it lies
inside the claim's scope, yet the derived base name is the empty
string — so `the derived base name is never the empty string` is false
on the code.  The derived location is resized-q1_w1_h1/.jpeg. -/
theorem empty_segment_empty_base :
    getOutputKey "q1_w1_h1/" = "resized-q1_w1_h1/.jpeg" ∧
    beforeLastDot ("".data) = none ∧ jsBaseName ("".data) = [] := by
  refine ⟨by decide, rfl, rfl⟩

/-- Claim C10, amended: for every input key of either recognised shape
whose trailing segment has no dot or has everything before its last dot
empty, the derivation uses the entire segment as the base name and
yields resized- parameter-part / segment . output-extension; the
derived base name equals the segment, hence it is empty exactly when
the segment itself is empty (and nonempty for every nonempty
segment). -/
theorem nodot_uses_whole_segment (d1 d2 d3 d n : List Char)
    (h1 : d1 ≠ []) (h1d : ∀ x ∈ d1, x.isDigit = true)
    (h2 : d2 ≠ []) (h2d : ∀ x ∈ d2, x.isDigit = true)
    (h3 : d3 ≠ []) (h3d : ∀ x ∈ d3, x.isDigit = true)
    (hd : d ≠ []) (hdd : ∀ x ∈ d, x.isDigit = true)
    (hn : ∀ c ∈ n, isLineTerm c = false)
    (hdot : beforeLastDot n = none ∨ beforeLastDot n = some []) :
    jsBaseName n = n ∧
    getOutputKeyChars (newKey d1 d2 d3 n) =
      ("resized-".data) ++ newPfx d1 d2 d3 ++ ('/' :: (n ++ ('.' :: extensionChars))) ∧
    getOutputKeyChars (oldKey d n) =
      ("resized-".data) ++ ('q' :: 'u' :: 'a' :: 'l' :: 'i' :: 't' :: 'y' :: d)
        ++ ('/' :: (n ++ ('.' :: extensionChars))) ∧
    (n ≠ [] → jsBaseName n ≠ []) := by
  have hbase : jsBaseName n = n := by
    rcases hdot with h | h <;> simp [jsBaseName, h]
  refine ⟨hbase, ?_, ?_, fun hne => by rw [hbase]; exact hne⟩
  · simp [getOutputKeyChars, matchNewShape_newKey n h1 h1d h2 h2d h3 h3d,
      dotStar_eq_self hn, hbase]
  · simp [getOutputKeyChars, matchNewShape_oldKey, matchOldShape_oldKey n hd hdd,
      dotStar_eq_self hn, hbase]

theorem nodot_uses_whole_segment_witness :
    (beforeLastDot ("noext".data) = none ∨ beforeLastDot ("noext".data) = some []) ∧
    jsBaseName ("noext".data) = "noext".data ∧
    getOutputKeyChars (newKey "1".data "2".data "3".data "noext".data) =
      ("resized-".data) ++ newPfx "1".data "2".data "3".data
        ++ ('/' :: ("noext".data ++ ('.' :: extensionChars))) :=
  have h := nodot_uses_whole_segment "1".data "2".data "3".data "7".data "noext".data
    (by decide) (by decide) (by decide) (by decide) (by decide) (by decide)
    (by decide) (by decide) (by decide) (Or.inl (by decide))
  ⟨Or.inl (by decide), h.1, h.2.1⟩

/-! ### Claims about parameter clamping -/

/-- Claim C9, counterexample: a dimension input that parses to zero is
not replaced by the fallback 128 — `Math.max(1, 0)` has already turned
it into 1 before the zero test runs, so `handleDimensionChange 0`
returns 1, and the zero arm of the fallback is unreachable. -/
theorem dimension_zero_not_fallback :
    handleDimensionChange (some 0) = 1 ∧ handleDimensionChange (some 0) ≠ 128 := by
  constructor <;> norm_num [handleDimensionChange, jsMax]

/-- Claim C9, amended: the quality handler clamps its input into
[1,100] and substitutes the fixed default 85 when the input parses as
NaN; the dimension handler clamps its input to at least 1 and
substitutes the fixed fallback 128 only when the input parses as NaN —
an input parsing to zero is clamped to 1, not replaced by 128, because
the clamp precedes the zero test — and the stored values are not
rounded to integers (input 5/2 is stored as 5/2).  So every job is
created with quality in [1,100] and both dimensions at least 1. -/
theorem clamp_bounds (x : Option ℚ) :
    1 ≤ handleQualityChange x ∧ handleQualityChange x ≤ 100 ∧
    handleQualityChange none = 85 ∧
    1 ≤ handleDimensionChange x ∧ handleDimensionChange none = 128 ∧
    handleDimensionChange (some 0) = 1 ∧
    handleDimensionChange (some (5 / 2)) = 5 / 2 := by
  refine ⟨?_, ?_, rfl, ?_, rfl, ?_, ?_⟩
  · cases x with
    | none => norm_num [handleQualityChange, jsMin, jsMax]
    | some v =>
      simp only [handleQualityChange, jsMin, jsMax]
      exact le_max_left 1 _
  · cases x with
    | none => norm_num [handleQualityChange, jsMin, jsMax]
    | some v =>
      simp only [handleQualityChange, jsMin, jsMax]
      exact max_le (by norm_num) (min_le_left 100 v)
  · cases x with
    | none => norm_num [handleDimensionChange, jsMax]
    | some v =>
      simp only [handleDimensionChange, jsMax]
      have hle : (1 : ℚ) ≤ max 1 v := le_max_left 1 v
      have hne : max 1 v ≠ 0 := by intro h; rw [h] at hle; norm_num at hle
      simp only [if_neg hne]
      exact hle
  · norm_num [handleDimensionChange, jsMax]
  · norm_num [handleDimensionChange, jsMax]

/-! ### Claims about the polling loop -/

theorem pollTick_stopped {maxA : Nat} {s : PollState} (r : ProbeResult)
    (h : s.status ≠ PollStatus.running) : pollTick maxA s r = s := by
  simp [pollTick, h]

/-- While no probe has found the artifact and the budget is not yet
exceeded, the poll is still running and has issued exactly one probe
per firing. -/
theorem pollRun_running (maxA : Nat) (f : Nat → ProbeResult) (n : Nat)
    (hn : n ≤ maxA) (h : ∀ j, j < n → isFound (f j) = false) :
    pollRun maxA f n =
      { status := PollStatus.running, attempts := n, probes := n } := by
  induction n with
  | zero => rfl
  | succ m ih =>
    have hm : pollRun maxA f m =
        { status := PollStatus.running, attempts := m, probes := m } :=
      ih (Nat.le_of_succ_le hn) fun j hj => h j (Nat.lt_succ_of_lt hj)
    have hbudget : ¬ maxA < m + 1 := Nat.not_lt.mpr hn
    have hf : isFound (f m) = false := h m (Nat.lt_succ_self m)
    rw [pollRun, hm]
    cases hr : f m with
    | response st =>
      have hok : (decide (200 ≤ st) && decide (st ≤ 299)) = false := by
        rw [hr] at hf; exact hf
      simp [pollTick, hbudget, hok, ite_self]
    | networkError => simp [pollTick, hbudget]

/-- Claim C2 (confirmed): in a polling run with budget maxA in which no
probe ever finds the artifact, the attempt counter is incremented
before each probe and the callback stops the poll without probing once
the counter exceeds maxA: after maxA+1 firings the poll is exhausted
with exactly maxA probes issued, and every later firing leaves the
state unchanged, so no probe numbered maxA+1 is ever issued. -/
theorem poll_exhausts_after_max (maxA : Nat) (f : Nat → ProbeResult)
    (h : ∀ i, isFound (f i) = false) :
    (pollRun maxA f (maxA + 1)).status = PollStatus.exhausted ∧
    (pollRun maxA f (maxA + 1)).probes = maxA ∧
    ∀ m, pollRun maxA f (maxA + 1 + m) = pollRun maxA f (maxA + 1) := by
  have hrun := pollRun_running maxA f maxA (Nat.le_refl maxA) fun j _ => h j
  have hstep : pollRun maxA f (maxA + 1) =
      { status := PollStatus.exhausted, attempts := 0, probes := maxA } := by
    rw [pollRun, hrun]
    simp [pollTick, Nat.lt_succ_self maxA]
  refine ⟨by rw [hstep], by rw [hstep], ?_⟩
  intro m
  induction m with
  | zero => rfl
  | succ k ih =>
    have : maxA + 1 + (k + 1) = (maxA + 1 + k) + 1 := rfl
    rw [this, pollRun, ih, hstep, pollTick_stopped]
    simp

theorem poll_exhausts_after_max_witness :
    (∀ i : Nat, isFound ((fun _ => ProbeResult.response 404) i) = false) ∧
    (pollRun 3 (fun _ => ProbeResult.response 404) 4).status = PollStatus.exhausted ∧
    (pollRun 3 (fun _ => ProbeResult.response 404) 4).probes = 3 :=
  have h := poll_exhausts_after_max 3 (fun _ => ProbeResult.response 404)
    (fun _ => rfl)
  ⟨fun _ => rfl, h.1, h.2.1⟩

/-- Claim C6 (confirmed): when the probe of firing k (0-based; the
(k+1)-th probe) finds the artifact and no earlier probe did, the poll
stops as succeeded at that very probe: exactly k+1 probes have been
issued and every later firing leaves the state unchanged, so no probe
k+2 is issued and no further state change (hence no further state
callback) happens.  The model is the sequential abstraction of §4.5 in
which each probe completes before the next firing. -/
theorem poll_stops_on_found (maxA : Nat) (f : Nat → ProbeResult) (k : Nat)
    (hbefore : ∀ j, j < k → isFound (f j) = false)
    (hk : isFound (f k) = true) (hbudget : k + 1 ≤ maxA) :
    (pollRun maxA f (k + 1)).status = PollStatus.succeeded ∧
    (pollRun maxA f (k + 1)).probes = k + 1 ∧
    ∀ m, pollRun maxA f (k + 1 + m) = pollRun maxA f (k + 1) := by
  have hrun := pollRun_running maxA f k (Nat.le_of_succ_le hbudget) hbefore
  have hstep : pollRun maxA f (k + 1) =
      { status := PollStatus.succeeded, attempts := 0, probes := k + 1 } := by
    rw [pollRun, hrun]
    have hb : ¬ maxA < k + 1 := Nat.not_lt.mpr hbudget
    cases hr : f k with
    | response st =>
      have hok : (200 ≤ st && st ≤ 299) = true := by
        rw [hr] at hk; exact hk
      simp [pollTick, hb, hok]
    | networkError => rw [hr] at hk; exact absurd hk (by simp [isFound])
  refine ⟨by rw [hstep], by rw [hstep], ?_⟩
  intro m
  induction m with
  | zero => rfl
  | succ j ih =>
    have : k + 1 + (j + 1) = (k + 1 + j) + 1 := rfl
    rw [this, pollRun, ih, hstep, pollTick_stopped]
    simp

theorem poll_stops_on_found_witness :
    (∀ j, j < 1 → isFound ((fun i => if i = 1 then ProbeResult.response 200
      else ProbeResult.response 404) j) = false) ∧
    (pollRun maxPollingAttempts
      (fun i => if i = 1 then ProbeResult.response 200 else ProbeResult.response 404)
      2).status = PollStatus.succeeded ∧
    (pollRun maxPollingAttempts
      (fun i => if i = 1 then ProbeResult.response 200 else ProbeResult.response 404)
      2).probes = 2 :=
  have h := poll_stops_on_found maxPollingAttempts
    (fun i => if i = 1 then ProbeResult.response 200 else ProbeResult.response 404)
    1 (by decide) (by decide) (by decide)
  ⟨by decide, h.1, h.2.1⟩

/-- Claim C7 (confirmed): during polling, any probe outcome that is not
a success — an unexpected status just as much as a 403/404 and a
network fault — leads to exactly the state the not-found outcome leads
to; in particular, while the budget is not exceeded, the poll keeps
running toward the attempt cap and the job is never aborted early by
such an outcome. -/
theorem poll_nonfound_uniform (maxA : Nat) (s : PollState) (r : ProbeResult)
    (h : isFound r = false) :
    pollTick maxA s r = pollTick maxA s (ProbeResult.response 404) ∧
    (s.status = PollStatus.running → s.attempts + 1 ≤ maxA →
      (pollTick maxA s r).status = PollStatus.running) := by
  have h404ok : (decide (200 ≤ (404 : Nat)) && decide ((404 : Nat) ≤ 299)) = false := by
    decide
  have h404nf : (decide ((404 : Nat) = 403) || decide ((404 : Nat) = 404)) = true := by
    decide
  constructor
  · by_cases hs : s.status ≠ PollStatus.running
    · simp [pollTick, hs]
    · by_cases hb2 : maxA < s.attempts + 1
      · simp [pollTick, hs, hb2]
      · cases hr : r with
        | response st =>
          have hok : (decide (200 ≤ st) && decide (st ≤ 299)) = false := by
            rw [hr] at h; exact h
          simp [pollTick, hs, hb2, hok, h404ok, h404nf, ite_self]
        | networkError =>
          simp [pollTick, hs, hb2, h404ok, h404nf, ite_self]
  · intro hrun hbudget
    have hb : ¬ maxA < s.attempts + 1 := Nat.not_lt.mpr hbudget
    cases hr : r with
    | response st =>
      have hok : (decide (200 ≤ st) && decide (st ≤ 299)) = false := by
        rw [hr] at h; exact h
      simp [pollTick, hrun, hb, hok, ite_self]
    | networkError => simp [pollTick, hrun, hb]

theorem poll_nonfound_uniform_witness :
    isFound ProbeResult.networkError = false ∧
    pollTick maxPollingAttempts pollInit ProbeResult.networkError =
      pollTick maxPollingAttempts pollInit (ProbeResult.response 404) ∧
    (pollTick maxPollingAttempts pollInit ProbeResult.networkError).status =
      PollStatus.running :=
  have h := poll_nonfound_uniform maxPollingAttempts pollInit
    ProbeResult.networkError rfl
  ⟨rfl, h.1, h.2 rfl (by decide)⟩

/-! ### Claims about the controller: timers and submission -/

/-- The set of live interval timers is exactly the one named by the
ref: no interval is ever leaked. -/
abbrev timerInv (s : CState) : Prop := s.liveTimers = s.pollRef.toList

theorem stopPolling_pollRef (s : CState) : (stopPolling s).pollRef = none := by
  unfold stopPolling
  cases hp : s.pollRef with
  | none => show s.pollRef = none; exact hp
  | some id => rfl

theorem stopPolling_key (s : CState) :
    (stopPolling s).lastUploadedKey = s.lastUploadedKey := by
  unfold stopPolling
  cases hp : s.pollRef <;> rfl

theorem stopPolling_phase (s : CState) : (stopPolling s).phase = s.phase := by
  unfold stopPolling
  cases hp : s.pollRef <;> rfl

theorem stopPolling_selected (s : CState) :
    (stopPolling s).selectedFile = s.selectedFile := by
  unfold stopPolling
  cases hp : s.pollRef <;> rfl

theorem stopPolling_live (s : CState) (h : timerInv s) :
    (stopPolling s).liveTimers = [] := by
  unfold stopPolling
  cases hp : s.pollRef with
  | none =>
    show s.liveTimers = []
    rw [h, hp]
    rfl
  | some id =>
    show s.liveTimers.erase id = []
    have hl : s.liveTimers = [id] := by rw [h, hp]; rfl
    rw [hl]
    simp

theorem timerInv_stopPolling (s : CState) (h : timerInv s) :
    timerInv (stopPolling s) := by
  show (stopPolling s).liveTimers = ((stopPolling s).pollRef).toList
  rw [stopPolling_live s h, stopPolling_pollRef s]
  rfl

theorem timerInv_pollEffect (s : CState) (h : timerInv s) :
    timerInv (pollEffect s) := by
  unfold pollEffect
  cases hk : (stopPolling s).lastUploadedKey with
  | none => exact timerInv_stopPolling s h
  | some k =>
    show (stopPolling s).liveTimers ++ [(stopPolling s).nextId] =
      (Option.some (stopPolling s).nextId).toList
    rw [stopPolling_live s h]
    rfl

/-- Whenever the effect leaves an installed timer behind, the attempt
counter has just been zeroed (line 247). -/
theorem pollEffect_attempts_zero (s : CState)
    (hs : ((pollEffect s).pollRef).isSome = true) : (pollEffect s).attempts = 0 := by
  unfold pollEffect at hs ⊢
  cases hk : (stopPolling s).lastUploadedKey with
  | none => simp [hk, stopPolling_pollRef] at hs
  | some k => rfl

theorem pollEffect_ref_none (s : CState) (hk : s.lastUploadedKey = none) :
    (pollEffect s).pollRef = none := by
  have h2 : (stopPolling s).lastUploadedKey = none := by
    rw [stopPolling_key]; exact hk
  unfold pollEffect
  rw [h2]
  exact stopPolling_pollRef s

/-- Cancelling and rerunning the effect with no recorded key leaves no
timer installed. -/
theorem pollStop_ref_none (u : CState) (hu : u.lastUploadedKey = none) :
    (pollEffect (stopPolling u)).pollRef = none :=
  pollEffect_ref_none (stopPolling u) (by rw [stopPolling_key]; exact hu)

theorem pollStop_not_installed (u : CState) (hu : u.lastUploadedKey = none)
    (hs : ((pollEffect (stopPolling u)).pollRef).isSome = true) : False := by
  rw [pollStop_ref_none u hu] at hs
  cases hs

theorem pollEffect_phase (s : CState) : (pollEffect s).phase = s.phase := by
  unfold pollEffect
  cases hk : (stopPolling s).lastUploadedKey with
  | none => exact stopPolling_phase s
  | some k => exact stopPolling_phase s

theorem pollEffect_selected (s : CState) :
    (pollEffect s).selectedFile = s.selectedFile := by
  unfold pollEffect
  cases hk : (stopPolling s).lastUploadedKey with
  | none => exact stopPolling_selected s
  | some k => exact stopPolling_selected s

theorem timerInv_length (s : CState) (h : timerInv s) :
    s.liveTimers.length ≤ 1 := by
  rw [h]
  cases s.pollRef <;> simp

/-- Cancel-then-rerun-the-effect preserves the invariant, for any
record update that leaves the timer fields untouched. -/
theorem timerInv_pollStop (s u : CState) (hl : u.liveTimers = s.liveTimers)
    (hr : u.pollRef = s.pollRef) (h : timerInv s) :
    timerInv (pollEffect (stopPolling u)) := by
  have hu : timerInv u := by
    show u.liveTimers = (u.pollRef).toList
    rw [hl, hr]
    exact h
  exact timerInv_pollEffect (stopPolling u) (timerInv_stopPolling u hu)

theorem timerInv_pollEffect_of (s u : CState) (hl : u.liveTimers = s.liveTimers)
    (hr : u.pollRef = s.pollRef) (h : timerInv s) : timerInv (pollEffect u) := by
  have hu : timerInv u := by
    show u.liveTimers = (u.pollRef).toList
    rw [hl, hr]
    exact h
  exact timerInv_pollEffect u hu

/-- Every controller event preserves the no-leaked-timer invariant. -/
theorem timerInv_step {s : CState} (h : timerInv s) (e : Event) :
    timerInv (step s e) := by
  cases e with
  | selectFile f => exact timerInv_pollStop s _ rfl rfl h
  | clearFile => exact h
  | submit =>
    rcases hf : s.selectedFile with _ | f
    · simp only [step, hf]
      exact h
    · simp only [step, hf]
      exact timerInv_pollStop s _ rfl rfl h
  | brokerOk key => exact h
  | brokerFail msg => exact timerInv_pollStop s _ rfl rfl h
  | transferOk => exact timerInv_pollEffect_of s _ rfl rfl h
  | transferFail msg => exact timerInv_pollStop s _ rfl rfl h
  | tickEv r =>
    rcases hp : s.pollRef with _ | id
    · simp only [step, hp]
      exact h
    · rcases r with st | _
      · by_cases hb : maxPollingAttempts < s.attempts + 1
        · simp only [step, hp, if_pos hb]
          refine timerInv_stopPolling _ ?_
          show s.liveTimers = (Option.some id).toList
          rw [h, hp]
        · by_cases hok : (decide (200 ≤ st) && decide (st ≤ 299)) = true
          · simp only [step, hp, if_neg hb, if_pos hok]
            show (stopPolling s).liveTimers = ((stopPolling s).pollRef).toList
            rw [stopPolling_live s h, stopPolling_pollRef s]
            rfl
          · simp only [step, hp, if_neg hb, if_neg hok]
            split
            all_goals
              show s.liveTimers = (Option.some id).toList
              rw [h, hp]
      · by_cases hb : maxPollingAttempts < s.attempts + 1
        · simp only [step, hp, if_pos hb]
          refine timerInv_stopPolling _ ?_
          show s.liveTimers = (Option.some id).toList
          rw [h, hp]
        · simp only [step, hp, if_neg hb]
          show s.liveTimers = (Option.some id).toList
          rw [h, hp]
  | reset => exact timerInv_pollStop s _ rfl rfl h

/-- Claim C3 (confirmed): under the no-leaked-timer invariant (which
holds initially), every event preserves it, so at most one interval
timer ever exists per controller instance; selecting a file, resetting,
and submitting with a file selected all leave the controller with no
installed poll timer (the in-flight poll is cancelled before anything
else proceeds); and any event after which an installed timer exists
either kept the previously installed timer or installed a fresh one
whose attempt counter is 0 — a fresh poll always begins with the
counter reset. -/
theorem single_poll_timer (s : CState) (h : timerInv s) :
    timerInv cInit ∧
    (∀ e, timerInv (step s e) ∧ ((step s e).liveTimers).length ≤ 1) ∧
    (∀ f, (step s (Event.selectFile f)).pollRef = none) ∧
    (step s Event.reset).pollRef = none ∧
    (∀ f, s.selectedFile = some f → (step s Event.submit).pollRef = none) ∧
    (∀ e, ((step s e).pollRef).isSome = true →
      (step s e).pollRef = s.pollRef ∨ (step s e).attempts = 0) := by
  refine ⟨rfl, fun e => ⟨timerInv_step h e, timerInv_length _ (timerInv_step h e)⟩,
    ?_, ?_, ?_, ?_⟩
  · intro f
    exact pollStop_ref_none _ rfl
  · exact pollStop_ref_none _ rfl
  · intro f hf
    simp only [step, hf]
    exact pollStop_ref_none _ rfl
  · intro e hsome
    cases e with
    | selectFile f => exact (pollStop_not_installed _ rfl hsome).elim
    | clearFile => exact Or.inl rfl
    | submit =>
      rcases hf : s.selectedFile with _ | f
      · left
        simp [step, hf]
      · simp only [step, hf] at hsome
        exact (pollStop_not_installed _ rfl hsome).elim
    | brokerOk key => exact Or.inl rfl
    | brokerFail msg => exact (pollStop_not_installed _ rfl hsome).elim
    | transferOk => exact Or.inr (pollEffect_attempts_zero _ hsome)
    | transferFail msg => exact (pollStop_not_installed _ rfl hsome).elim
    | reset => exact (pollStop_not_installed _ rfl hsome).elim
    | tickEv r =>
      rcases hp : s.pollRef with _ | id
      · left
        simp [step, hp]
      · rcases r with st | _
        · by_cases hb : maxPollingAttempts < s.attempts + 1
          · simp only [step, hp, if_pos hb] at hsome
            simp [stopPolling_pollRef] at hsome
          · by_cases hok : (decide (200 ≤ st) && decide (st ≤ 299)) = true
            · simp only [step, hp, if_neg hb, if_pos hok] at hsome
              simp [stopPolling_pollRef] at hsome
            · left
              simp only [step, hp, if_neg hb, if_neg hok]
              split <;> rfl
        · by_cases hb : maxPollingAttempts < s.attempts + 1
          · simp only [step, hp, if_pos hb] at hsome
            simp [stopPolling_pollRef] at hsome
          · left
            simp only [step, hp, if_neg hb]

theorem single_poll_timer_witness :
    timerInv cInit ∧ (step cInit (Event.selectFile 1)).pollRef = none :=
  ⟨rfl, (single_poll_timer cInit rfl).2.2.1 1⟩

/-- While a poll is in flight the file selection has already been
cleared (line 222 clears it in the same continuation that records the
uploaded key and enters AwaitingResult). -/
abbrev noFileWhenAwaiting (s : CState) : Prop :=
  s.phase = Phase.awaitingResult → s.selectedFile = none

/-- A reachable state of the controller that is mid-flight in the
upload (the request for the upload location has been issued and no
response has arrived): a file was selected and submit was clicked. -/
def inflightState : CState := step (step cInit (Event.selectFile 1)) Event.submit

/-- A reachable state of the controller in AwaitingResult: a file was
selected, submit clicked, the broker answered with a key, the transfer
succeeded, and polling is in flight. -/
def awaitingState : CState :=
  step (step (step (step cInit (Event.selectFile 1)) Event.submit)
    (Event.brokerOk "q85_w128_h128/a.png")) Event.transferOk

/-- Claim C4, counterexample: in the reachable non-Idle state reached
by selecting a file and clicking submit once (RequestingLocation, with
the file still selected, exactly as in handleUpload where
setSelectedFile(null) only happens after a successful transfer), a
second submit is not rejected at all: the only guard in handleUpload is
the missing-file check, so the second submit proceeds to request a new
upload URL.  The claim that submit in any non-Idle state is rejected
with an invalid-transition error is therefore false on the code. -/
theorem submit_nonidle_not_rejected :
    inflightState.phase = Phase.requestingLocation ∧
    inflightState.selectedFile = some 1 ∧
    (step inflightState Event.submit).uploadStatus = "Getting upload URL..." ∧
    (step inflightState Event.submit).uploadStatus ≠ "Please select a file first." := by
  refine ⟨rfl, rfl, rfl, by decide⟩

/-- Claim C4, amended: the no-file-when-awaiting invariant is preserved
by every event, and under it a submit issued while the controller is in
AwaitingResult (a poll in flight) is rejected by the missing-file guard
of handleUpload: the whole effect is the status message asking to
select a file — nothing else of the state changes, so nothing is
queued, the installed poll timer is untouched and no second poller
starts.  In earlier non-Idle phases, where the file is still selected,
submit is not rejected (see the counterexample): it cancels the poll
and restarts the request flow instead. -/
theorem submit_awaiting_only_message (s : CState) (hInv : noFileWhenAwaiting s) :
    (∀ e, noFileWhenAwaiting (step s e)) ∧
    (s.phase = Phase.awaitingResult →
      step s Event.submit = { s with uploadStatus := "Please select a file first." }) := by
  constructor
  · intro e
    cases e with
    | selectFile f =>
      intro hph
      simp only [step] at hph
      rw [pollEffect_phase, stopPolling_phase] at hph
      cases hph
    | clearFile => intro _; rfl
    | submit =>
      rcases hf : s.selectedFile with _ | f
      · simp only [step, hf]
        intro _
        rfl
      · simp only [step, hf]
        intro hph
        rw [pollEffect_phase, stopPolling_phase] at hph
        cases hph
    | brokerOk key => intro hph; cases hph
    | brokerFail msg =>
      intro hph
      simp only [step] at hph
      rw [pollEffect_phase, stopPolling_phase] at hph
      cases hph
    | transferOk =>
      intro _
      simp only [step]
      rw [pollEffect_selected]
    | transferFail msg =>
      intro hph
      simp only [step] at hph
      rw [pollEffect_phase, stopPolling_phase] at hph
      cases hph
    | tickEv r =>
      rcases hp : s.pollRef with _ | id
      · simp only [step, hp]
        exact hInv
      · rcases r with st | _
        · by_cases hb : maxPollingAttempts < s.attempts + 1
          · simp only [step, hp, if_pos hb]
            intro hph
            rw [stopPolling_phase] at hph
            cases hph
          · by_cases hok : (decide (200 ≤ st) && decide (st ≤ 299)) = true
            · simp only [step, hp, if_neg hb, if_pos hok]
              intro hph
              cases hph
            · simp only [step, hp, if_neg hb, if_neg hok]
              split
              all_goals exact hInv
        · by_cases hb : maxPollingAttempts < s.attempts + 1
          · simp only [step, hp, if_pos hb]
            intro hph
            rw [stopPolling_phase] at hph
            cases hph
          · simp only [step, hp, if_neg hb]
            exact hInv
    | reset =>
      intro hph
      simp only [step] at hph
      rw [pollEffect_phase, stopPolling_phase] at hph
      cases hph
  · intro hph
    have hf : s.selectedFile = none := hInv hph
    simp only [step, hf]

theorem submit_awaiting_only_message_witness :
    noFileWhenAwaiting awaitingState ∧
    awaitingState.phase = Phase.awaitingResult ∧
    step awaitingState Event.submit =
      { awaitingState with uploadStatus := "Please select a file first." } :=
  ⟨by decide, by decide,
    (submit_awaiting_only_message awaitingState (by decide)).2 (by decide)⟩

end ImageResizer
